import Mathlib

/-
Verification development for the timetable notification bot
(src/timetable_bot.py).  The Python source is shallowly embedded:

* Calendar dates are modelled as day indices (Nat) where day 0 is a
  Monday, so "weekday() < 5" becomes "d % 7 < 5".  The DD.MM.YYYY
  string rendering of dates (date_to_str) is abstracted to the decimal
  numeral of the day index; the embedding only relies on the map from
  dates to strings being injective.
* Python dicts keyed by user id are modelled as association lists in
  insertion order with unique keys, matching dict iteration order.
* Fallible code (int() on a non-numeric string, reading a broken file)
  is modelled with Option, none standing for the raised exception.
* File-system interaction is modelled by an explicit source state
  (missing / unreadable / parsed content).
-/

/-- Parses the digits of a character list into a number; none as soon as a
non-digit character appears.  Helper for the model of Python int(). -/
def parseDigits : List Char → Nat → Option Nat
  | [], acc => some acc
  | c :: cs, acc =>
    if c.isDigit then parseDigits cs (acc * 10 + (c.toNat - 48)) else none

/-- Drops leading and trailing whitespace from a character list, the way
Python int() ignores surrounding whitespace of its argument. -/
def trimChars (cs : List Char) : List Char :=
  ((cs.dropWhile Char.isWhitespace).reverse.dropWhile Char.isWhitespace).reverse

/-- Model of Python int(s) applied to a string: surrounding whitespace is
ignored, an optional sign is followed by decimal digits; any other shape
raises ValueError, modelled as none. -/
def parseIntStr (s : String) : Option Int :=
  match trimChars s.data with
  | [] => none
  | ['-'] => none
  | ['+'] => none
  | '-' :: cs => (parseDigits cs 0).map (fun n => -(n : Int))
  | '+' :: cs => (parseDigits cs 0).map (fun n => (n : Int))
  | cs => (parseDigits cs 0).map (fun n => (n : Int))

/-- Model of Timetable.is_working_day: weekday() < 5, i.e. not Saturday
(day index 5 mod 7) and not Sunday (6 mod 7); day 0 is a Monday. -/
def is_working_day (d : Nat) : Bool := d % 7 < 5

/-- Fuel-bounded version of the while-loop of get_next_working_day.  The
Python loop "while not is_working_day: current += 1" runs at most twice
(Saturday, Sunday), so fuel 7 is never exhausted. -/
def nextLoop : Nat → Nat → Nat
  | 0, d => d
  | fuel + 1, d => if is_working_day d then d else nextLoop fuel (d + 1)

/-- Model of Timetable.get_next_working_day: the argument is truncated to
midnight (both branches of the source's if add exactly one day, so only
the date part matters, which the day index already is), one day is added,
then the scan advances past non-working days. -/
def get_next_working_day (from_d : Nat) : Nat := nextLoop 7 (from_d + 1)

/-- Model of one CSV row of the timetable: the fields are, in order, the
columns Дата (as a day index), Пара (kept as the raw string), Дисциплина,
Номер темы, Вид занятия, Преподаватели and Ауд. -/
structure Row where
  date : Nat
  para : String
  disc : String
  tema : String
  vid : String
  prep : String
  aud : String
deriving DecidableEq, Repr

/-- Ordinal sort key of a row: the value int(row['Пара']) would produce,
defaulted to 0 (the default is only ever used under a proof that parsing
succeeded). -/
def ordKeyD (r : Row) : Int := (parseIntStr r.para).getD 0

/-- Rows of the data whose Дата field equals the given date; the list
comprehension of get_timetable_for_date. -/
def rowsFor (data : List Row) (d : Nat) : List Row :=
  data.filter (fun r => r.date == d)

/-- Model of Timetable.get_timetable_for_date: filters the rows for the
date and sorts them by int(row['Пара']) ascending with a stable sort
(Python's sorted).  When some matching row's Пара is not numeric, int()
raises ValueError, modelled as none. -/
def get_timetable_for_date (data : List Row) (d : Nat) : Option (List Row) :=
  let classes := rowsFor data d
  if classes.all (fun r => (parseIntStr r.para).isSome) then
    some (List.insertionSort (fun a b => ordKeyD a ≤ ordKeyD b) classes)
  else
    none

/-- Model of Timetable.date_to_str, abstracted to the decimal numeral of
the day index (injective, which is all the code relies on). -/
def date_to_str (d : Nat) : String := toString d

/-- Replaces an empty field by the placeholder, the `or "-"` idiom of
format_timetable. -/
def fmtField (s : String) : String := if s = "" then "-" else s

/-- Renders one session line of format_timetable. -/
def fmtLine (r : Row) : String :=
  let subject := fmtField r.disc
  let theme := fmtField r.tema
  let lessonType := fmtField r.vid
  let teacher := fmtField r.prep
  let room := fmtField r.aud
  let line := r.para ++ ". " ++ subject
  let line := if theme ≠ "-" then line ++ " (" ++ theme ++ ")" else line
  line ++ " | " ++ lessonType ++ " | " ++ teacher ++ " | " ++ room

/-- Model of Timetable.format_timetable: no matching rows gives the fixed
"not found" message, a day where every Дисциплина is empty gives the fixed
self-study message, otherwise a header plus one line per session.  The
none case propagates the ValueError of the ordinal sort. -/
def format_timetable (data : List Row) (d : Nat) : Option String := do
  let classes ← get_timetable_for_date data d
  if classes.isEmpty then
    pure ("На " ++ date_to_str d ++ " пар не найдено.")
  else if classes.all (fun r => r.disc == "") then
    pure ("📚 " ++ date_to_str d ++ " (пт)\n\nРабота над диссертацией")
  else
    pure (String.intercalate "\n"
      (("📚 Расписание на " ++ date_to_str d ++ ":\n") :: classes.map fmtLine))

/-- Model of the ReminderStorage state: the reminders dict (user id to
list of texts, in insertion order) and the announced_dates list. -/
structure Storage where
  reminders : List (Int × List String)
  announced : List String
deriving DecidableEq, Repr

/-- State of a freshly constructed ReminderStorage before load: empty
dict and empty announced list. -/
def initStorage : Storage := ⟨[], []⟩

/-- Dict lookup on the association-list model. -/
def dictGet (m : List (Int × List String)) (k : Int) : Option (List String) :=
  (m.find? (fun p => p.1 == k)).map (fun p => p.2)

/-- Dict update of an existing key, keeping insertion order. -/
def dictSet (m : List (Int × List String)) (k : Int) (v : List String) :
    List (Int × List String) :=
  m.map (fun p => if p.1 == k then (p.1, v) else p)

/-- Dict deletion of a key. -/
def dictDel (m : List (Int × List String)) (k : Int) : List (Int × List String) :=
  m.filter (fun p => p.1 != k)

/-- Model of ReminderStorage.add_reminder: creates the user's list when
absent, then appends the text.  There is no capacity check in the source;
the function always succeeds. -/
def add_reminder (st : Storage) (uid : Int) (text : String) : Storage :=
  match dictGet st.reminders uid with
  | some l => { st with reminders := dictSet st.reminders uid (l ++ [text]) }
  | none => { st with reminders := st.reminders ++ [(uid, [text])] }

/-- Model of ReminderStorage.get_reminders: the user's list, empty when
the key is absent. -/
def get_reminders (st : Storage) (uid : Int) : List String :=
  (dictGet st.reminders uid).getD []

/-- Model of ReminderStorage.delete_all_reminders: removes the user's key
when present. -/
def delete_all_reminders (st : Storage) (uid : Int) : Storage :=
  if (dictGet st.reminders uid).isSome then
    { st with reminders := dictDel st.reminders uid }
  else st

/-- Model of ReminderStorage.delete_reminder: pops the entry at the index
when the user is present and 0 <= index < len, removing the key entirely
when the list becomes empty. -/
def delete_reminder (st : Storage) (uid : Int) (index : Int) : Storage :=
  match dictGet st.reminders uid with
  | some l =>
    if 0 ≤ index ∧ index < (l.length : Int) then
      let l' := l.eraseIdx index.toNat
      if l'.isEmpty then { st with reminders := dictDel st.reminders uid }
      else { st with reminders := dictSet st.reminders uid l' }
    else st
  | none => st

/-- Model of ReminderStorage.get_all_reminders: the whole dict. -/
def get_all_reminders (st : Storage) : List (Int × List String) := st.reminders

/-- Model of ReminderStorage.mark_announced: appends the date string when
not yet present. -/
def mark_announced (st : Storage) (ds : String) : Storage :=
  if st.announced.contains ds then st
  else { st with announced := st.announced ++ [ds] }

/-- Model of ReminderStorage.is_announced_today. -/
def is_announced_today (st : Storage) (ds : String) : Bool :=
  st.announced.contains ds

/-- Model of ReminderStorage.clear_announced. -/
def clear_announced (st : Storage) : Storage := { st with announced := [] }

/-- Lookup in the user_names cache with the Python fallback
f"User {user_id}". -/
def namesGet (names : List (Int × String)) (uid : Int) : String :=
  match names.find? (fun p => p.1 == uid) with
  | some p => p.2
  | none => "User " ++ toString uid

/-- Wraps a reminder text in double quotes as format_reminders_output
does. -/
def quoteLine (s : String) : String := "\"" ++ s ++ "\""

/-- Body lines of one user's block in format_reminders_output: a single
quoted line for exactly one reminder, numbered quoted lines otherwise. -/
def userLines : List String → List String
  | [] => []
  | [r] => [quoteLine r]
  | rs => rs.enum.map (fun p => toString (p.1 + 1) ++ ". " ++ quoteLine p.2)

/-- One user's block in format_reminders_output: skipped when the list is
empty, otherwise the @name header, the body lines, and the separating
empty line. -/
def userBlock (names : List (Int × String)) (p : Int × List String) : List String :=
  if p.2.isEmpty then []
  else ("@" ++ namesGet names p.1 ++ ":") :: (userLines p.2 ++ [""])

/-- Removes trailing whitespace, Python's str.rstrip(). -/
def rstripStr (s : String) : String :=
  ⟨(s.data.reverse.dropWhile Char.isWhitespace).reverse⟩

/-- Model of format_reminders_output: per-user blocks in dict insertion
order, joined by newlines, right-stripped. -/
def format_reminders_output (all : List (Int × List String))
    (names : List (Int × String)) : String :=
  rstripStr (String.intercalate "\n" ((all.map (userBlock names)).flatten))

/-- Morning trigger time (7, 30) from the configuration. -/
def REMINDER_MORNING_TIME : Nat × Nat := (7, 30)

/-- Evening trigger time (19, 30) from the configuration. -/
def REMINDER_EVENING_TIME : Nat × Nat := (19, 30)

/-- Target-date resolution of scheduled_reminder: today when the current
wall-clock time is strictly before the job's configured time, otherwise
tomorrow.  nowTime is (now.hour, now.minute) at the moment the job runs
and tt the (hour, minute) pair carried in the job data. -/
def resolve_target (nowTime tt : Nat × Nat) (today : Nat) : Nat :=
  if nowTime.1 < tt.1 ∨ (nowTime.1 = tt.1 ∧ nowTime.2 < tt.2) then today
  else today + 1

/-- Model of scheduled_reminder.  Returns none when the timetable lookup
raises (non-numeric ordinal); otherwise some (new storage, delivered
message or none).  send_ok models whether bot.send_message succeeds; on
failure the exception is caught, nothing is delivered and the storage is
untouched; on success mark_announced records the date.  The reminders
dict is never cleared on either path. -/
def scheduled_reminder (data : List Row) (names : List (Int × String))
    (st : Storage) (today : Nat) (nowTime tt : Nat × Nat) (send_ok : Bool) :
    Option (Storage × Option String) := do
  let target := resolve_target nowTime tt today
  let classes ← get_timetable_for_date data target
  if classes.isEmpty then
    pure (st, none)
  else
    let dateStr := date_to_str target
    let msg ← format_timetable data target
    let msg :=
      if !(get_all_reminders st).isEmpty then
        let rtext := format_reminders_output (get_all_reminders st) names
        if rtext ≠ "" then msg ++ "\n\n" ++ rtext else msg
      else msg
    if send_ok then
      pure (mark_announced st dateStr, some msg)
    else
      pure (st, none)

/-- State of the CSV source file as seen by Timetable.load_csv. -/
inductive CsvSource where
  | missing
  | unreadable
  | ok (rows : List Row)
deriving DecidableEq, Repr

/-- Model of Timetable.load_csv via the constructor: on a missing file it
prints and returns, on a read/parse exception it prints and returns, in
both cases leaving self.data at its initial empty list; otherwise the
parsed rows. -/
def load_csv (src : CsvSource) : List Row :=
  match src with
  | .missing => []
  | .unreadable => []
  | .ok rows => rows

/-- State of the reminders.json file as seen by ReminderStorage.load:
absent, unreadable (open raises), malformed (json.load raises), or parsed
JSON content carrying the reminders dict (string keys) and the
announced_dates list. -/
inductive FileState where
  | absent
  | unreadable
  | malformedJson
  | parsed (rem : List (String × List String)) (ann : List String)
deriving DecidableEq, Repr

/-- Model of ReminderStorage.load on top of the initial state: every
exception inside the try block (unreadable file, malformed JSON, a dict
key on which int() raises) is caught, leaving both fields at their
initial empty values; an absent file is skipped entirely. -/
def ReminderStorage_load (fs : FileState) : Storage :=
  match fs with
  | .absent => initStorage
  | .unreadable => initStorage
  | .malformedJson => initStorage
  | .parsed rem ann =>
    if rem.all (fun p => (parseIntStr p.1).isSome) then
      { reminders := rem.map (fun p => ((parseIntStr p.1).getD 0, p.2)),
        announced := ann }
    else initStorage

/-- Mutating operations of ReminderStorage reachable from the handlers. -/
inductive LedgerOp where
  | add (uid : Int) (text : String)
  | delOne (uid : Int) (index : Int)
  | delAll (uid : Int)
  | mark (ds : String)
  | clearAnn
deriving DecidableEq, Repr

/-- Applies one ledger operation to the storage state. -/
def applyOp (st : Storage) (op : LedgerOp) : Storage :=
  match op with
  | .add uid t => add_reminder st uid t
  | .delOne uid i => delete_reminder st uid i
  | .delAll uid => delete_all_reminders st uid
  | .mark ds => mark_announced st ds
  | .clearAnn => clear_announced st

/-- Storage states reachable from a fresh store through the mutating
operations of the handlers. -/
def Reachable (st : Storage) : Prop :=
  ∃ ops : List LedgerOp, st = ops.foldl applyOp initStorage

/-- Checks whether the second list occurs as a run of consecutive
elements of the first. -/
def isPrefixList : List Char → List Char → Bool
  | [], _ => true
  | _ :: _, [] => false
  | a :: as, b :: bs => a == b && isPrefixList as bs

/-- Substring test used to state "the message contains the reminder
text". -/
def listContainsRun : List Char → List Char → Bool
  | [], needle => needle.isEmpty
  | h :: t, needle => isPrefixList needle (h :: t) || listContainsRun t needle

/-- Substring test on strings. -/
def strContains (hay needle : String) : Bool :=
  listContainsRun hay.data needle.data

/-- Helper: the fuel-bounded scan returns a working day at or after its
start whenever one exists within the fuel. -/
theorem nextLoop_works (fuel : Nat) :
    ∀ d : Nat, (∃ k, k < fuel ∧ is_working_day (d + k) = true) →
      d ≤ nextLoop fuel d ∧ is_working_day (nextLoop fuel d) = true := by
  induction fuel with
  | zero =>
    intro d h
    rcases h with ⟨k, hk, _⟩
    omega
  | succ n ih =>
    intro d h
    cases hw : is_working_day d with
    | true =>
      have hstep : nextLoop (n + 1) d = d := by simp [nextLoop, hw]
      rw [hstep]
      exact ⟨Nat.le_refl d, hw⟩
    | false =>
      have hstep : nextLoop (n + 1) d = nextLoop n (d + 1) := by
        simp [nextLoop, hw]
      rw [hstep]
      rcases h with ⟨k, hk, hwk⟩
      have hk0 : k ≠ 0 := by
        intro h0
        rw [h0, Nat.add_zero] at hwk
        rw [hw] at hwk
        exact Bool.false_ne_true hwk
      have h' : ∃ k', k' < n ∧ is_working_day ((d + 1) + k') = true := by
        refine ⟨k - 1, by omega, ?_⟩
        have he : (d + 1) + (k - 1) = d + k := by omega
        rw [he]
        exact hwk
      have hres := ih (d + 1) h'
      exact ⟨by omega, hres.2⟩

/-- Helper: within any window of 7 consecutive days there is a working
day. -/
theorem working_day_exists (d : Nat) :
    ∃ k, k < 7 ∧ is_working_day (d + k) = true := by
  refine ⟨if d % 7 < 5 then 0 else 7 - d % 7, ?_, ?_⟩
  · split <;> omega
  · split <;> (simp only [is_working_day, decide_eq_true_eq]; omega)

/-- C6 (amended): get_next_working_day always returns a date strictly
after from_date that is a working day; it consults only the weekly
pattern (no session data, no lookahead bound, never a None result). -/
theorem get_next_working_day_spec (d : Nat) :
    d < get_next_working_day d ∧
      is_working_day (get_next_working_day d) = true := by
  have h := nextLoop_works 7 (d + 1) (working_day_exists (d + 1))
  unfold get_next_working_day
  exact ⟨by omega, h.2⟩

/-- C6 (counterexample): with an empty dataset and from_date a Monday
(day 0), get_next_working_day returns day 1, a date whose session set is
empty, instead of skipping it or returning None as the claim's CSV-aware
mode requires; the function has no mode or lookahead parameter at all. -/
theorem get_next_working_day_ignores_sessions :
    get_next_working_day 0 = 1 ∧
      rowsFor ([] : List Row) (get_next_working_day 0) = [] := by
  constructor
  · rfl
  · rfl

/-- Helper: updating a present key makes a subsequent lookup of that key
return the new value. -/
theorem dictGet_dictSet_self (k : Int) (v : List String) :
    ∀ m : List (Int × List String), (dictGet m k).isSome = true →
      dictGet (dictSet m k v) k = some v := by
  intro m
  induction m with
  | nil => intro h; simp [dictGet] at h
  | cons p t ih =>
    intro h
    by_cases hp : p.1 == k
    · unfold dictSet dictGet
      rw [List.map_cons, if_pos hp]
      simp [List.find?_cons, hp]
    · unfold dictSet dictGet
      rw [List.map_cons, if_neg hp]
      have hp' : (p.1 == k) = false := by
        rw [← Bool.not_eq_true]
        exact hp
      have h' : (dictGet t k).isSome = true := by
        unfold dictGet at h
        simp only [List.find?_cons, hp'] at h
        exact h
      have hgoal := ih h'
      unfold dictGet dictSet at hgoal
      simp only [List.find?_cons, hp']
      exact hgoal

/-- Helper: looking up a key absent from the front list of an append
falls through to the back list. -/
theorem dictGet_append (m rest : List (Int × List String)) (k : Int)
    (h : dictGet m k = none) : dictGet (m ++ rest) k = dictGet rest k := by
  unfold dictGet at h ⊢
  rw [List.find?_append]
  cases hf : m.find? (fun p => p.1 == k) with
  | none => simp
  | some p => rw [hf] at h; simp at h

/-- C5 (amended): add_reminder never rejects: for every storage state the
user's stored entry count after an add is the previous count plus one, so
no per-user capacity bound exists in any reachable state. -/
theorem add_reminder_always_appends (st : Storage) (uid : Int) (t : String) :
    (get_reminders (add_reminder st uid t) uid).length =
      (get_reminders st uid).length + 1 := by
  unfold add_reminder get_reminders
  cases hg : dictGet st.reminders uid with
  | none =>
    have happ := dictGet_append st.reminders [(uid, [t])] uid hg
    have hone : dictGet [(uid, [t])] uid = some [t] := by
      unfold dictGet
      simp [List.find?_cons]
    simp [hg, happ, hone]
  | some l =>
    have hset := dictGet_dictSet_self uid (l ++ [t]) st.reminders
      (by rw [hg]; rfl)
    simp [hg, hset]

/-- C5 (counterexample): a user holding 10 entries is not at any cap: the
next add is accepted and the stored count becomes 11, so adds are never
rejected and no MAX_PER_USER bound is enforced. -/
theorem add_reminder_no_capacity :
    (get_reminders
        ((List.replicate 10 "x").foldl (fun st t => add_reminder st 1 t)
          initStorage) 1).length = 10 ∧
      (get_reminders
        (add_reminder
          ((List.replicate 10 "x").foldl (fun st t => add_reminder st 1 t)
            initStorage) 1 "y") 1).length = 11 := by
  constructor
  · rfl
  · rfl

/-- C7 (amended): when the CSV source is missing or unreadable, load_csv
logs and returns with the index left empty; no error is raised and every
subsequent lookup is still served, reporting an empty session list and
the fixed "not found" message for every date. -/
theorem load_csv_missing_still_serves (d : Nat) :
    get_timetable_for_date (load_csv CsvSource.missing) d = some [] ∧
      get_timetable_for_date (load_csv CsvSource.unreadable) d = some [] ∧
      format_timetable (load_csv CsvSource.missing) d =
        some ("На " ++ date_to_str d ++ " пар не найдено.") := by
  refine ⟨rfl, rfl, rfl⟩

/-- C7 (counterexample): with the timetable file missing the constructor
returns an empty index and the bot keeps serving timetable lookups (here
date 3 answers with the "not found" message) instead of failing with a
LoadError and refusing to serve. -/
theorem load_csv_missing_serves_date3 :
    load_csv CsvSource.missing = [] ∧
      format_timetable (load_csv CsvSource.missing) 3 =
        some "На 3 пар не найдено." := by
  constructor
  · rfl
  · rfl

/-- C10: ReminderStorage.load is total and, for an absent file, an
unreadable file, and malformed JSON alike, returns normally with the
reminder mapping empty and the announced-dates list empty. -/
theorem reminder_load_bad_file_is_empty :
    (ReminderStorage_load FileState.absent).reminders = [] ∧
      (ReminderStorage_load FileState.absent).announced = [] ∧
      (ReminderStorage_load FileState.unreadable).reminders = [] ∧
      (ReminderStorage_load FileState.unreadable).announced = [] ∧
      (ReminderStorage_load FileState.malformedJson).reminders = [] ∧
      (ReminderStorage_load FileState.malformedJson).announced = [] := by
  refine ⟨rfl, rfl, rfl, rfl, rfl, rfl⟩

/-- C2 (code bug): at the moment either daily job actually runs (at or
after its configured wall-clock time, here exactly at it), the current
time is not strictly before the job's target time, so resolve_target
takes the tomorrow branch for the morning trigger as well: the morning
firing resolves today + 1, not today as the claim (and the source's own
comment) states.  The evening firing correctly resolves today + 1. -/
theorem resolve_target_at_fire_times (today : Nat) :
    resolve_target (7, 30) REMINDER_MORNING_TIME today = today + 1 ∧
      resolve_target (19, 30) REMINDER_EVENING_TIME today = today + 1 := by
  constructor
  · rfl
  · rfl

/-- Helper: mark_announced only touches the announced list, never the
reminders dict. -/
theorem mark_announced_reminders (st : Storage) (ds : String) :
    (mark_announced st ds).reminders = st.reminders := by
  unfold mark_announced
  split <;> rfl

/-- C1 (amended): a scheduled firing never clears the ledger: whatever
storage state scheduled_reminder returns (successful send included, where
only mark_announced runs) has the same reminders dict as before, so a
subsequent list of any user's reminders returns exactly what it returned
before the dispatch. -/
theorem scheduled_send_keeps_reminders
    (data : List Row) (names : List (Int × String)) (st : Storage)
    (today : Nat) (nowTime tt : Nat × Nat) (send_ok : Bool) (st' : Storage)
    (m : Option String)
    (h : scheduled_reminder data names st today nowTime tt send_ok = some (st', m)) :
    st'.reminders = st.reminders ∧
      ∀ uid, get_reminders st' uid = get_reminders st uid := by
  have hrem : st'.reminders = st.reminders := by
    simp only [scheduled_reminder, bind, Option.bind_eq_some] at h
    obtain ⟨classes, hg, h⟩ := h
    split at h
    · simp only [Option.pure_def, Option.some.injEq, Prod.mk.injEq] at h
      rw [← h.1]
    · rw [Option.bind_eq_some] at h
      obtain ⟨msg0, hf, h⟩ := h
      split at h
      · simp only [Option.pure_def, Option.some.injEq, Prod.mk.injEq] at h
        rw [← h.1, mark_announced_reminders]
      · simp only [Option.pure_def, Option.some.injEq, Prod.mk.injEq] at h
        rw [← h.1]
  refine ⟨hrem, fun uid => ?_⟩
  unfold get_reminders
  rw [hrem]

/-- Witness for scheduled_send_keeps_reminders at a concrete successful
dispatch. -/
theorem scheduled_send_keeps_reminders_witness :
    (scheduled_reminder [⟨2, "1", "Math", "", "", "", ""⟩] [] initStorage 2
        (7, 29) (7, 30) true =
      some (⟨[], ["2"]⟩, some "📚 Расписание на 2:\n\n1. Math | - | - | -")) ∧
      ((⟨[], ["2"]⟩ : Storage).reminders = initStorage.reminders ∧
        ∀ uid, get_reminders ⟨[], ["2"]⟩ uid = get_reminders initStorage uid) :=
  ⟨rfl, scheduled_send_keeps_reminders [⟨2, "1", "Math", "", "", "", ""⟩] []
    initStorage 2 (7, 29) (7, 30) true ⟨[], ["2"]⟩
    (some "📚 Расписание на 2:\n\n1. Math | - | - | -") (by rfl)⟩

/-- C1 (counterexample): user 1 holds "Bring laptop", the morning-style
firing for a working day with a session succeeds (a message is
delivered), yet afterwards the user's reminder list is still
["Bring laptop"], not empty. -/
theorem scheduled_send_reminders_survive_cex :
    (scheduled_reminder [⟨2, "1", "Math", "", "лек", "Ив", "101"⟩] [(1, "A")]
        ⟨[(1, ["Bring laptop"])], []⟩ 2 (7, 29) (7, 30) true).map
      (fun p => (get_reminders p.1 1, p.2.isSome)) =
      some (["Bring laptop"], true) := by
  rfl

/-- C3 (amended): a scheduled firing is suppressed exactly when the
target date's session list is empty: nothing is sent and the storage is
returned unchanged.  Working-day status is never consulted, so this is
the only suppression criterion. -/
theorem scheduled_reminder_suppress_no_sessions
    (data : List Row) (names : List (Int × String)) (st : Storage)
    (today : Nat) (nowTime tt : Nat × Nat) (send_ok : Bool)
    (h : rowsFor data (resolve_target nowTime tt today) = []) :
    scheduled_reminder data names st today nowTime tt send_ok =
      some (st, none) := by
  have hg : get_timetable_for_date data (resolve_target nowTime tt today) =
      some [] := by
    unfold get_timetable_for_date
    rw [h]
    rfl
  simp only [scheduled_reminder, hg]
  rfl

/-- Witness for scheduled_reminder_suppress_no_sessions on an empty
dataset. -/
theorem scheduled_reminder_suppress_no_sessions_witness :
    (rowsFor ([] : List Row) (resolve_target (7, 29) (7, 30) 0) = []) ∧
      scheduled_reminder [] [] initStorage 0 (7, 29) (7, 30) true =
        some (initStorage, none) :=
  ⟨rfl, scheduled_reminder_suppress_no_sessions _ _ _ _ _ _ _ rfl⟩

/-- C3 (counterexample): day 5 is a Saturday (not a working day), yet a
firing whose target is that Saturday is not suppressed when the CSV
carries a session row for it: a message is delivered. -/
theorem scheduled_reminder_sends_on_saturday :
    is_working_day 5 = false ∧
      (scheduled_reminder [⟨5, "1", "Math", "", "лек", "Ив", "101"⟩] []
          ⟨[], []⟩ 5 (7, 29) (7, 30) true).map (fun p => p.2.isSome) =
        some true := by
  constructor
  · rfl
  · rfl

/-- C4 (amended): on a self-study target day (non-empty session list,
every discipline empty) format_timetable does render the fixed
self-study notice with no reminder content, but scheduled_reminder then
appends the reminder block unconditionally, so with a non-empty ledger
the dispatched message is the self-study notice followed by the rendered
reminders. -/
theorem scheduled_selfstudy_appends_reminders
    (data : List Row) (names : List (Int × String)) (st : Storage)
    (today : Nat) (nowTime tt : Nat × Nat) (classes : List Row)
    (hg : get_timetable_for_date data (resolve_target nowTime tt today) =
      some classes)
    (hne : classes ≠ [])
    (hss : classes.all (fun r => r.disc == "") = true)
    (hrem : st.reminders ≠ [])
    (hrt : format_reminders_output st.reminders names ≠ "") :
    scheduled_reminder data names st today nowTime tt true =
      some (mark_announced st (date_to_str (resolve_target nowTime tt today)),
        some (("📚 " ++ date_to_str (resolve_target nowTime tt today) ++
            " (пт)\n\nРабота над диссертацией") ++ "\n\n" ++
          format_reminders_output st.reminders names)) := by
  have he : classes.isEmpty = false := List.isEmpty_eq_false.mpr hne
  have hfmt : format_timetable data (resolve_target nowTime tt today) =
      some ("📚 " ++ date_to_str (resolve_target nowTime tt today) ++
        " (пт)\n\nРабота над диссертацией") := by
    simp only [format_timetable, bind, hg, Option.some_bind, he, hss]
    rfl
  have hremb : (get_all_reminders st).isEmpty = false :=
    List.isEmpty_eq_false.mpr hrem
  simp only [scheduled_reminder, bind, hg, Option.some_bind, he, hfmt,
    Bool.false_eq_true, if_false, hremb, Bool.not_false, if_true]
  split
  · rfl
  · next hcond => exact absurd hrt hcond

/-- Witness for scheduled_selfstudy_appends_reminders at a concrete
self-study day with one pending reminder. -/
theorem scheduled_selfstudy_appends_reminders_witness :
    (get_timetable_for_date [⟨2, "1", "", "", "", "", ""⟩]
        (resolve_target (7, 29) (7, 30) 2) = some [⟨2, "1", "", "", "", "", ""⟩]) ∧
      ([⟨2, "1", "", "", "", "", ""⟩] : List Row) ≠ [] ∧
      (⟨[(1, ["Bring laptop"])], []⟩ : Storage).reminders ≠ [] ∧
      scheduled_reminder [⟨2, "1", "", "", "", "", ""⟩] [(1, "A")]
          ⟨[(1, ["Bring laptop"])], []⟩ 2 (7, 29) (7, 30) true =
        some (mark_announced ⟨[(1, ["Bring laptop"])], []⟩
            (date_to_str (resolve_target (7, 29) (7, 30) 2)),
          some (("📚 " ++ date_to_str (resolve_target (7, 29) (7, 30) 2) ++
              " (пт)\n\nРабота над диссертацией") ++ "\n\n" ++
            format_reminders_output [(1, ["Bring laptop"])] [(1, "A")])) :=
  ⟨rfl, by decide, by decide,
    scheduled_selfstudy_appends_reminders _ _ _ _ _ _ _ rfl (by decide) rfl
      (by decide) (by decide)⟩

/-- C4 (counterexample): a self-study day (single session, empty
discipline) with "Bring laptop" pending for user 1: the dispatched
message does contain the reminder text, the reminder block is not
omitted. -/
theorem selfstudy_message_contains_reminder :
    ([⟨2, "1", "", "", "", "", ""⟩] : List Row).all (fun r => r.disc == "") = true ∧
      (scheduled_reminder [⟨2, "1", "", "", "", "", ""⟩] [(1, "A")]
          ⟨[(1, ["Bring laptop"])], []⟩ 2 (7, 29) (7, 30) true).map
        (fun p => p.2.map (fun m => strContains m "Bring laptop")) =
        some (some true) := by
  constructor
  · rfl
  · rfl

/-- Helper: after deleting a key it can no longer be looked up. -/
theorem dictGet_dictDel_self (k : Int) :
    ∀ m : List (Int × List String), dictGet (dictDel m k) k = none := by
  intro m
  induction m with
  | nil => rfl
  | cons p t ih =>
    by_cases hp : p.1 == k
    · have hb : (p.1 != k) = false := by simp [bne, hp]
      have hd : dictDel (p :: t) k = dictDel t k := by
        unfold dictDel
        rw [List.filter_cons, hb]
        simp
      rw [hd]
      exact ih
    · have hp' : (p.1 == k) = false := by
        rw [← Bool.not_eq_true]
        exact hp
      have hb : (p.1 != k) = true := by simp [bne, hp']
      have hd : dictDel (p :: t) k = p :: dictDel t k := by
        unfold dictDel
        rw [List.filter_cons, hb]
        simp
      rw [hd]
      unfold dictGet
      simp only [List.find?_cons, hp']
      exact ih

/-- Helper: every entry of an updated dict is an old entry or carries the
new value. -/
theorem mem_dictSet {m : List (Int × List String)} {k : Int}
    {v : List String} {q : Int × List String} (hq : q ∈ dictSet m k v) :
    q ∈ m ∨ q.2 = v := by
  unfold dictSet at hq
  rcases List.mem_map.1 hq with ⟨p, hp, he⟩
  by_cases h : p.1 == k
  · rw [if_pos h] at he
    right
    rw [← he]
  · rw [if_neg h] at he
    left
    rw [← he]
    exact hp

/-- Helper: deletion only removes entries. -/
theorem mem_dictDel {m : List (Int × List String)} {k : Int}
    {q : Int × List String} (hq : q ∈ dictDel m k) : q ∈ m :=
  List.mem_filter.1 hq |>.1

/-- Invariant of the reminders dict: no persisted key maps to an empty
list. -/
def LedgerInv (st : Storage) : Prop := ∀ p ∈ st.reminders, p.2 ≠ []

/-- Helper: add_reminder preserves the no-empty-list invariant. -/
theorem inv_add (st : Storage) (uid : Int) (t : String) (h : LedgerInv st) :
    LedgerInv (add_reminder st uid t) := by
  intro q hq
  unfold add_reminder at hq
  split at hq
  · rcases mem_dictSet hq with hin | hv
    · exact h q hin
    · rw [hv]
      simp
  · rcases List.mem_append.1 hq with hin | hone
    · exact h q hin
    · rcases List.mem_singleton.1 hone with rfl
      simp

/-- Helper: delete_reminder preserves the no-empty-list invariant (the
key is removed before an empty list could be stored). -/
theorem inv_delOne (st : Storage) (uid i : Int) (h : LedgerInv st) :
    LedgerInv (delete_reminder st uid i) := by
  intro q hq
  cases hg : dictGet st.reminders uid with
  | none =>
    have hq' : q ∈ st.reminders := by
      unfold delete_reminder at hq
      rw [hg] at hq
      exact hq
    exact h q hq'
  | some l =>
    unfold delete_reminder at hq
    rw [hg] at hq
    have hq' : q ∈ (if 0 ≤ i ∧ i < (l.length : Int) then
        if (l.eraseIdx i.toNat).isEmpty = true then
          { st with reminders := dictDel st.reminders uid }
        else { st with reminders := dictSet st.reminders uid (l.eraseIdx i.toNat) }
      else st).reminders := hq
    by_cases hc : 0 ≤ i ∧ i < (l.length : Int)
    · rw [if_pos hc] at hq'
      by_cases hemp : (l.eraseIdx i.toNat).isEmpty = true
      · rw [if_pos hemp] at hq'
        exact h q (mem_dictDel hq')
      · rw [if_neg hemp] at hq'
        rcases mem_dictSet hq' with hin | hv
        · exact h q hin
        · rw [hv]
          intro hnil
          rw [hnil] at hemp
          simp at hemp
    · rw [if_neg hc] at hq'
      exact h q hq'

/-- Helper: delete_all_reminders preserves the no-empty-list invariant. -/
theorem inv_delAll (st : Storage) (uid : Int) (h : LedgerInv st) :
    LedgerInv (delete_all_reminders st uid) := by
  intro q hq
  unfold delete_all_reminders at hq
  split at hq
  · exact h q (mem_dictDel hq)
  · exact h q hq

/-- Helper: every handler operation preserves the no-empty-list
invariant. -/
theorem inv_applyOp (st : Storage) (op : LedgerOp) (h : LedgerInv st) :
    LedgerInv (applyOp st op) := by
  cases op with
  | add uid t => exact inv_add st uid t h
  | delOne uid i => exact inv_delOne st uid i h
  | delAll uid => exact inv_delAll st uid h
  | mark ds =>
    intro q hq
    rw [show applyOp st (LedgerOp.mark ds) = mark_announced st ds from rfl,
      mark_announced_reminders] at hq
    exact h q hq
  | clearAnn =>
    intro q hq
    exact h q hq

/-- Helper: the invariant is preserved by any sequence of operations. -/
theorem inv_foldl (ops : List LedgerOp) :
    ∀ st : Storage, LedgerInv st → LedgerInv (ops.foldl applyOp st) := by
  induction ops with
  | nil =>
    intro st h
    exact h
  | cons op rest ih =>
    intro st h
    exact ih (applyOp st op) (inv_applyOp st op h)

/-- Helper: delete_all_reminders leaves no trace of the user's key. -/
theorem delete_all_removes_key (st : Storage) (uid : Int) :
    dictGet (delete_all_reminders st uid).reminders uid = none := by
  unfold delete_all_reminders
  by_cases hk : (dictGet st.reminders uid).isSome = true
  · rw [if_pos hk]
    exact dictGet_dictDel_self uid st.reminders
  · rw [if_neg hk]
    cases hgg : dictGet st.reminders uid with
    | none => rfl
    | some l =>
      rw [hgg] at hk
      simp at hk

/-- Helper: deleting the only remaining entry removes the user's key
entirely. -/
theorem delete_last_removes_key (st : Storage) (uid : Int) (t : String)
    (h : get_reminders st uid = [t]) :
    dictGet (delete_reminder st uid 0).reminders uid = none := by
  have hg : dictGet st.reminders uid = some [t] := by
    unfold get_reminders at h
    cases hgg : dictGet st.reminders uid with
    | none =>
      rw [hgg] at h
      simp at h
    | some l =>
      rw [hgg] at h
      simp at h
      rw [h]
  have hterm : delete_reminder st uid 0 =
      (if (0 : Int) ≤ 0 ∧ (0 : Int) < (([t] : List String).length : Int) then
        if (([t] : List String).eraseIdx (0 : Int).toNat).isEmpty = true then
          { st with reminders := dictDel st.reminders uid }
        else
          { st with
            reminders :=
              dictSet st.reminders uid
                (([t] : List String).eraseIdx (0 : Int).toNat) }
      else st) := by
    unfold delete_reminder
    rw [hg]
  rw [hterm, if_pos (by simp), if_pos (by rfl)]
  exact dictGet_dictDel_self uid st.reminders

/-- C8: in every reachable storage state a persisted user key maps to a
non-empty entry list; delete_all_reminders always removes the user's key,
and deleting the last remaining entry removes the key entirely, so an
empty list is never persisted. -/
theorem ledger_empty_never_persisted (st : Storage) (h : Reachable st) :
    (∀ p ∈ st.reminders, p.2 ≠ []) ∧
      (∀ uid, dictGet (delete_all_reminders st uid).reminders uid = none) ∧
      (∀ uid t, get_reminders st uid = [t] →
        dictGet (delete_reminder st uid 0).reminders uid = none) := by
  refine ⟨?_, fun uid => delete_all_removes_key st uid,
    fun uid t hone => delete_last_removes_key st uid t hone⟩
  obtain ⟨ops, rfl⟩ := h
  exact inv_foldl ops initStorage (fun p hp => absurd hp (List.not_mem_nil p))

/-- Witness for ledger_empty_never_persisted at a state reached by a
single add. -/
theorem ledger_empty_never_persisted_witness :
    Reachable (⟨[(1, ["a"])], []⟩ : Storage) ∧
      (∀ p ∈ (⟨[(1, ["a"])], []⟩ : Storage).reminders, p.2 ≠ []) :=
  have hr : Reachable ⟨[(1, ["a"])], []⟩ := ⟨[LedgerOp.add 1 "a"], by rfl⟩
  ⟨hr, (ledger_empty_never_persisted _ hr).1⟩

/-- C9 (amended): when every matching row's ordinal is numeric the
lookup succeeds and returns the matching rows sorted by ordinal
ascending; the non-numeric case is not defaulted to 0 but aborts (see
the counterexample). -/
theorem get_timetable_sorted_when_numeric (data : List Row) (d : Nat)
    (h : (rowsFor data d).all (fun r => (parseIntStr r.para).isSome) = true) :
    ∃ l, get_timetable_for_date data d = some l ∧
      l.Perm (rowsFor data d) ∧
      List.Sorted (fun a b => ordKeyD a ≤ ordKeyD b) l := by
  simp only [get_timetable_for_date]
  rw [if_pos h]
  refine ⟨_, rfl, List.perm_insertionSort _ _, ?_⟩
  letI : IsTotal Row (fun a b => ordKeyD a ≤ ordKeyD b) :=
    ⟨fun a b => le_total _ _⟩
  letI : IsTrans Row (fun a b => ordKeyD a ≤ ordKeyD b) :=
    ⟨fun a b c hab hbc => le_trans hab hbc⟩
  exact List.sorted_insertionSort _ _

/-- Witness for get_timetable_sorted_when_numeric on two out-of-order
rows of one date. -/
theorem get_timetable_sorted_when_numeric_witness :
    ((rowsFor [⟨5, "2", "B", "", "", "", ""⟩, ⟨5, "1", "A", "", "", "", ""⟩] 5).all
        (fun r => (parseIntStr r.para).isSome) = true) ∧
      ∃ l, get_timetable_for_date
          [⟨5, "2", "B", "", "", "", ""⟩, ⟨5, "1", "A", "", "", "", ""⟩] 5 =
          some l ∧
        l.Perm
          (rowsFor [⟨5, "2", "B", "", "", "", ""⟩, ⟨5, "1", "A", "", "", "", ""⟩] 5) ∧
        List.Sorted (fun a b => ordKeyD a ≤ ordKeyD b) l :=
  ⟨by decide, get_timetable_sorted_when_numeric _ 5 (by decide)⟩

/-- C9 (counterexample): a row dated day 5 whose Пара field is "abc"
makes the lookup of day 5 raise ValueError (modelled none) instead of
treating the ordinal as 0. -/
theorem get_timetable_aborts_on_nonnumeric :
    get_timetable_for_date [⟨5, "abc", "Math", "", "", "", ""⟩] 5 = none := by
  rfl
